import Mathlib

/-!
Verification of the suscan channel-inspector core against its specification.

The development shallowly embeds the two source files of the repository:

* `src/analyzer/mq.c` — the message queue.  A queue is modelled as the list
  of its messages, head of the list being the head of the linked queue
  (`mq->head`).  The mutex/condition-variable machinery only serialises the
  operations and wakes blocked readers; the visible effect of every operation
  on the queue content is the pure list transformation embedded below.
* `src/unnamed/part_000` — the inspector object, its sample-feed pipeline,
  the control-protocol handler and the worker callback.  The DSP primitives
  (channel detector, NCO, AGC, Costas loops) and the complex exponential are
  external collaborators (sigutils / libm, not part of this repository); they
  are abstracted as an `Externals` record of step functions over opaque state
  types, exactly at the call boundary used by the source.  Machine floats
  (SUFLOAT / SUCOMPLEX) are modelled by an arbitrary linear ordered field
  with a floor function; complex values are real/imaginary pairs.
-/

set_option autoImplicit false

/-! ## Message queue (src/analyzer/mq.c) -/

/-- Message held by a suscan message queue: a `u32` type tag (modelled as a
natural number) and an opaque payload (`void *private`), cf. `struct
suscan_msg`.  The `next` link is the list structure itself. -/
structure SuscanMsg (Payload : Type) where
  type : Nat
  payload : Payload
  deriving DecidableEq

/-- Embedding of `suscan_mq_push` (mq.c:174-184): append a message at the
tail of the queue. -/
def suscan_mq_push {Payload : Type} (q : List (SuscanMsg Payload))
    (m : SuscanMsg Payload) : List (SuscanMsg Payload) :=
  q ++ [m]

/-- Embedding of `suscan_mq_push_front` (mq.c:164-172): prepend a message at
the head of the queue (the urgent-write path). -/
def suscan_mq_push_front {Payload : Type} (q : List (SuscanMsg Payload))
    (m : SuscanMsg Payload) : List (SuscanMsg Payload) :=
  m :: q

/-- Embedding of `suscan_mq_pop` (mq.c:186-202): remove and return the head
message, or `none` on an empty queue. -/
def suscan_mq_pop {Payload : Type} :
    List (SuscanMsg Payload) → Option (SuscanMsg Payload × List (SuscanMsg Payload))
  | [] => none
  | m :: rest => some (m, rest)

/-- Embedding of `suscan_mq_pop_w_type` (mq.c:204-232): walk the queue from
the head, unlink and return the first message whose type matches, leaving
every other message in place; `none` when no message matches. -/
def suscan_mq_pop_w_type {Payload : Type} (q : List (SuscanMsg Payload)) (t : Nat) :
    Option (SuscanMsg Payload × List (SuscanMsg Payload)) :=
  match q with
  | [] => none
  | m :: rest =>
      if m.type = t then some (m, rest)
      else
        match suscan_mq_pop_w_type rest t with
        | none => none
        | some (found, rest1) => some (found, m :: rest1)

/-- A write operation on a message queue: `suscan_mq_write` (normal) or
`suscan_mq_write_urgent` (mq.c:391-415), with the wrapped type and payload.
Header allocation is assumed to succeed (on allocation failure the queue is
left untouched and the writer returns failure). -/
inductive MqOp (Payload : Type) where
  | write (type : Nat) (payload : Payload)
  | writeUrgent (type : Nat) (payload : Payload)

/-- Value that distinguishes the urgent write path. -/
def MqOp.isUrgent {Payload : Type} : MqOp Payload → Bool
  | MqOp.write _ _ => false
  | MqOp.writeUrgent _ _ => true

/-- Message header built by `suscan_msg_new` for a write operation. -/
def MqOp.msgOf {Payload : Type} : MqOp Payload → SuscanMsg Payload
  | MqOp.write t p => ⟨t, p⟩
  | MqOp.writeUrgent t p => ⟨t, p⟩

/-- Effect of one write operation on the queue: `suscan_mq_write` appends via
`suscan_mq_push`, `suscan_mq_write_urgent` prepends via
`suscan_mq_push_front`. -/
def suscan_mq_apply_op {Payload : Type} (q : List (SuscanMsg Payload)) :
    MqOp Payload → List (SuscanMsg Payload)
  | MqOp.write t p => suscan_mq_push q ⟨t, p⟩
  | MqOp.writeUrgent t p => suscan_mq_push_front q ⟨t, p⟩

/-- Queue obtained by running a sequence of write operations against an
initially empty queue. -/
def suscan_mq_apply_ops {Payload : Type} (ops : List (MqOp Payload)) :
    List (SuscanMsg Payload) :=
  List.foldl suscan_mq_apply_op [] ops

theorem suscan_mq_apply_foldl {Payload : Type} (ops : List (MqOp Payload)) :
    ∀ us ns : List (SuscanMsg Payload),
      List.foldl suscan_mq_apply_op (us ++ ns) ops =
        ((ops.filter MqOp.isUrgent).reverse.map MqOp.msgOf ++ us) ++
          (ns ++ (ops.filter fun o => !o.isUrgent).map MqOp.msgOf) := by
  induction ops with
  | nil => intro us ns; simp
  | cons op rest ih =>
      intro us ns
      cases op with
      | write t p =>
          have h1 : suscan_mq_apply_op (us ++ ns) (MqOp.write t p) =
              us ++ (ns ++ [⟨t, p⟩]) := by
            simp [suscan_mq_apply_op, suscan_mq_push]
          calc List.foldl suscan_mq_apply_op (us ++ ns) (MqOp.write t p :: rest)
              = List.foldl suscan_mq_apply_op (us ++ (ns ++ [⟨t, p⟩])) rest := by
                rw [List.foldl_cons, h1]
            _ = ((rest.filter MqOp.isUrgent).reverse.map MqOp.msgOf ++ us) ++
                  ((ns ++ [⟨t, p⟩]) ++
                    (rest.filter fun o => !o.isUrgent).map MqOp.msgOf) := ih us (ns ++ [⟨t, p⟩])
            _ = (((MqOp.write t p :: rest).filter MqOp.isUrgent).reverse.map MqOp.msgOf ++ us) ++
                  (ns ++ ((MqOp.write t p :: rest).filter fun o => !o.isUrgent).map MqOp.msgOf) := by
                simp [List.filter_cons, MqOp.isUrgent, MqOp.msgOf]
      | writeUrgent t p =>
          have h1 : suscan_mq_apply_op (us ++ ns) (MqOp.writeUrgent t p) =
              (⟨t, p⟩ :: us) ++ ns := by
            simp [suscan_mq_apply_op, suscan_mq_push_front]
          calc List.foldl suscan_mq_apply_op (us ++ ns) (MqOp.writeUrgent t p :: rest)
              = List.foldl suscan_mq_apply_op ((⟨t, p⟩ :: us) ++ ns) rest := by
                rw [List.foldl_cons, h1]
            _ = ((rest.filter MqOp.isUrgent).reverse.map MqOp.msgOf ++ (⟨t, p⟩ :: us)) ++
                  (ns ++ (rest.filter fun o => !o.isUrgent).map MqOp.msgOf) := ih (⟨t, p⟩ :: us) ns
            _ = (((MqOp.writeUrgent t p :: rest).filter MqOp.isUrgent).reverse.map MqOp.msgOf ++ us) ++
                  (ns ++ ((MqOp.writeUrgent t p :: rest).filter fun o => !o.isUrgent).map MqOp.msgOf) := by
                simp [List.filter_cons, MqOp.isUrgent, MqOp.msgOf]

/-- C4: for every sequence of `write` / `write_urgent` operations run against
an empty queue, the resulting queue holds all urgent payloads first — in LIFO
order among themselves — followed by the non-urgent payloads in FIFO order,
and a plain read pops the queue head; in particular writing non-urgent A,
non-urgent B, then urgent C to an empty queue yields reads C, A, B. -/
theorem suscan_mq_urgent_before_fifo :
    (∀ (Payload : Type) (ops : List (MqOp Payload)),
        suscan_mq_apply_ops ops =
          ((ops.filter MqOp.isUrgent).reverse.map MqOp.msgOf ++
            (ops.filter fun o => !o.isUrgent).map MqOp.msgOf)) ∧
    (∀ (Payload : Type) (m : SuscanMsg Payload) (q : List (SuscanMsg Payload)),
        suscan_mq_pop (m :: q) = some (m, q)) ∧
    (suscan_mq_apply_ops
        [MqOp.write 0 1, MqOp.write 0 2, MqOp.writeUrgent 0 3] =
        [(⟨0, 3⟩ : SuscanMsg Nat), ⟨0, 1⟩, ⟨0, 2⟩]) ∧
    (suscan_mq_pop [(⟨0, 3⟩ : SuscanMsg Nat), ⟨0, 1⟩, ⟨0, 2⟩] =
        some (⟨0, 3⟩, [⟨0, 1⟩, ⟨0, 2⟩])) ∧
    (suscan_mq_pop [(⟨0, 1⟩ : SuscanMsg Nat), ⟨0, 2⟩] = some (⟨0, 1⟩, [⟨0, 2⟩])) ∧
    (suscan_mq_pop [(⟨0, 2⟩ : SuscanMsg Nat)] = some (⟨0, 2⟩, [])) := by
  refine ⟨?_, ?_, by decide, by decide, by decide, by decide⟩
  · intro Payload ops
    have h := suscan_mq_apply_foldl ops [] []
    simpa [suscan_mq_apply_ops] using h
  · intro Payload m q; rfl

/-- C5: `pop_w_type` removes and returns the first (oldest) message whose
type matches, leaving all other messages in their original relative order. -/
theorem suscan_mq_pop_w_type_first_match {Payload : Type} (t : Nat)
    (q1 q2 : List (SuscanMsg Payload)) (m : SuscanMsg Payload)
    (hm : m.type = t) (h1 : ∀ mm ∈ q1, mm.type ≠ t) :
    suscan_mq_pop_w_type (q1 ++ m :: q2) t = some (m, q1 ++ q2) := by
  induction q1 with
  | nil => simp [suscan_mq_pop_w_type, hm]
  | cons x xs ih =>
      have hx : x.type ≠ t := h1 x (by simp)
      have hrec := ih (fun y hy => h1 y (by simp [hy]))
      simp [suscan_mq_pop_w_type, hx, hrec]

/-- Witness for C5, following scenario S4 of the specification: with messages
of types 1, 2, 1 and payloads 10, 20, 30, `pop_w_type 2` returns the type-2
payload and the two type-1 messages remain readable in order. -/
theorem suscan_mq_pop_w_type_first_match_witness :
    (⟨2, 20⟩ : SuscanMsg Nat).type = 2 ∧
    (∀ mm ∈ [(⟨1, 10⟩ : SuscanMsg Nat)], mm.type ≠ 2) ∧
    suscan_mq_pop_w_type [(⟨1, 10⟩ : SuscanMsg Nat), ⟨2, 20⟩, ⟨1, 30⟩] 2 =
      some (⟨2, 20⟩, [⟨1, 10⟩, ⟨1, 30⟩]) ∧
    suscan_mq_pop [(⟨1, 10⟩ : SuscanMsg Nat), ⟨1, 30⟩] = some (⟨1, 10⟩, [⟨1, 30⟩]) ∧
    suscan_mq_pop [(⟨1, 30⟩ : SuscanMsg Nat)] = some (⟨1, 30⟩, []) :=
  ⟨rfl, by decide,
    suscan_mq_pop_w_type_first_match 2 [⟨1, 10⟩] [⟨1, 30⟩] ⟨2, 20⟩ rfl (by decide),
    rfl, rfl⟩

/-! ## Inspector data model (src/unnamed/part_000)

SUFLOAT is modelled by an arbitrary linear ordered field `R` with a floor
function; SUCOMPLEX by pairs of `R` (real and imaginary part).  The external
DSP objects owned by an inspector (two channel detectors, the NCO, the AGC
and the two Costas loops, all provided by sigutils) live in opaque state
types `D`, `N`, `A`, `K`; the operations the source invokes on them are
collected in an `Externals` record. -/

/-- Complex value over the SUFLOAT carrier, as a real/imaginary pair. -/
abbrev Cplx (R : Type) : Type := R × R

/-- Complex addition. -/
def Cplx.add {R : Type} [LinearOrderedField R] (u v : Cplx R) : Cplx R :=
  (u.1 + v.1, u.2 + v.2)

/-- Complex multiplication. -/
def Cplx.mul {R : Type} [LinearOrderedField R] (u v : Cplx R) : Cplx R :=
  (u.1 * v.1 - u.2 * v.2, u.1 * v.2 + u.2 * v.1)

/-- Complex conjugate (`SU_C_CONJ`). -/
def Cplx.conj {R : Type} [LinearOrderedField R] (u : Cplx R) : Cplx R :=
  (u.1, -u.2)

/-- Scaling of a complex value by a real factor. -/
def Cplx.smul {R : Type} [LinearOrderedField R] (c : R) (u : Cplx R) : Cplx R :=
  (c * u.1, c * u.2)

/-- Squared modulus of a complex value. -/
def Cplx.normSq {R : Type} [LinearOrderedField R] (u : Cplx R) : R :=
  u.1 * u.1 + u.2 * u.2

/-- Inspector lifecycle state (`SUSCAN_ASYNC_STATE_*`). -/
inductive AsyncState where
  | created
  | running
  | halting
  | halted
  deriving DecidableEq

/-- Numeric rank of a lifecycle state, in the documented order
Created < Running < Halting < Halted. -/
def AsyncState.rank : AsyncState → Nat
  | AsyncState.created => 0
  | AsyncState.running => 1
  | AsyncState.halting => 2
  | AsyncState.halted => 3

/-- Carrier-control variant (`SUSCAN_INSPECTOR_CARRIER_CONTROL_*`). -/
inductive FcCtrl where
  | manual
  | costas2
  | costas4
  deriving DecidableEq

/-- User-tunable inspector parameters (`struct suscan_inspector_params`). -/
structure InspParams (R : Type) where
  inspector_id : Nat
  fc_ctrl : FcCtrl
  fc_off : R
  fc_phi : R
  baud : R
  sym_phase : R
  deriving DecidableEq

/-- Operations the source invokes on the external sigutils DSP objects, at
exactly the call boundary of src/unnamed/part_000.  `det_feed` returns
`none` when `su_channel_detector_feed` fails.  `ncqo_read` advances the
oscillator one sample and yields its output; `agc_feed` consumes one sample
and yields the gain-controlled sample. -/
structure Externals (R D N A K : Type) where
  det_feed : D → Cplx R → Option D
  det_last_window : D → Cplx R
  det_baud : D → R
  det_samp_rate : D → R
  ncqo_read : N → N × Cplx R
  ncqo_set_freq : N → R → N
  agc_feed : A → Cplx R → A × Cplx R
  costas_feed : K → Cplx R → K
  costas_y : K → Cplx R

/-- Embedding of `suscan_inspector_t`.  The `task_state` cursor into the
shared consumer ring is owned by the worker integration and carries no
inspector-visible data, so it is not part of the record. -/
structure Inspector (R D N A K : Type) where
  state : AsyncState
  params : InspParams R
  fac_baud_det : D
  nln_baud_det : D
  lo : N
  phase : Cplx R
  agc : A
  costas_2 : K
  costas_4 : K
  sym_period : R
  sym_phase : R
  sym_last_sample : Cplx R
  sym_sampler_output : Cplx R
  sym_new_sample : Bool

/-- One iteration of the inner loop of `suscan_inspector_feed_bulk`
(part_000:161-218) on input sample `x`, with `target` the
`samp_phase_samples` value computed once per call.  `Except.error` carries
the partially updated inspector of the failure path (`goto done` after a
detector feed failure); `Except.ok` the inspector after the whole
iteration. -/
def suscan_inspector_feed_step {R D N A K : Type} [LinearOrderedField R] [FloorRing R]
    (E : Externals R D N A K) (target : R) (insp : Inspector R D N A K)
    (x : Cplx R) : Except (Inspector R D N A K) (Inspector R D N A K) :=
  match E.det_feed insp.fac_baud_det x with
  | none => Except.error insp
  | some fac1 =>
    let insp1 := { insp with fac_baud_det := fac1 }
    match E.det_feed insp1.nln_baud_det x with
    | none => Except.error insp1
    | some nln1 =>
      let insp2 := { insp1 with nln_baud_det := nln1 }
      -- det_x = insp->fac_baud_det->last_window_sample
      let det_x0 := E.det_last_window insp2.fac_baud_det
      -- det_x *= SU_C_CONJ(su_ncqo_read(&insp->lo)) * insp->phase
      let lo1 := E.ncqo_read insp2.lo
      let insp3 := { insp2 with lo := lo1.1 }
      let det_x1 := Cplx.mul (Cplx.mul det_x0 (Cplx.conj lo1.2)) insp3.phase
      -- det_x = 2 * su_agc_feed(&insp->agc, det_x) * 1.4142
      let agc1 := E.agc_feed insp3.agc det_x1
      let insp4 := { insp3 with agc := agc1.1 }
      let det_x2 := Cplx.smul (2 * ((14142 : R) / 10000)) agc1.2
      -- switch (insp->params.fc_ctrl)
      let recov : Inspector R D N A K × Cplx R :=
        match insp4.params.fc_ctrl with
        | FcCtrl.manual => (insp4, det_x2)
        | FcCtrl.costas2 =>
            let c2 := E.costas_feed insp4.costas_2 det_x2
            ({ insp4 with costas_2 := c2 }, E.costas_y c2)
        | FcCtrl.costas4 =>
            let c4 := E.costas_feed insp4.costas_4 det_x2
            ({ insp4 with costas_4 := c4 }, E.costas_y c4)
      let insp5 := recov.1
      let sample := recov.2
      -- fractional symbol sampler, active only when sym_period >= 1
      let insp6 :=
        if 1 ≤ insp5.sym_period then
          let ph0 := insp5.sym_phase + 1
          let ph := if insp5.sym_period ≤ ph0 then ph0 - insp5.sym_period else ph0
          -- (int) SU_FLOOR(insp->sym_phase - samp_phase_samples) == 0
          let fired : Bool := ⌊ph - target⌋ == 0
          let insp6a := { insp5 with sym_phase := ph, sym_new_sample := fired }
          if fired then
            -- alpha = sym_phase - floor(sym_phase); output = .5*((1-alpha)*last + alpha*sample)
            let alpha := ph - ((⌊ph⌋ : Int) : R)
            let outv :=
              Cplx.smul ((1 : R) / 2)
                (Cplx.add (Cplx.smul (1 - alpha) insp6a.sym_last_sample)
                  (Cplx.smul alpha sample))
            { insp6a with sym_sampler_output := outv }
          else insp6a
        else insp5
      Except.ok { insp6 with sym_last_sample := sample }

/-- Loop of `suscan_inspector_feed_bulk`: processes samples in order while
the buffer is non-empty and `sym_new_sample` has not been raised.  Returns
the final inspector, the value of the C return (`i`, the number of samples
consumed, or `-1` after a detector feed failure), and — as instrumentation
for the specification — the list of symbol samples emitted during the call.
-/
def suscan_inspector_feed_go {R D N A K : Type} [LinearOrderedField R] [FloorRing R]
    (E : Externals R D N A K) (target : R) (insp : Inspector R D N A K) :
    List (Cplx R) → Inspector R D N A K × Int × List (Cplx R)
  | [] => (insp, 0, [])
  | x :: xs =>
      if insp.sym_new_sample then (insp, 0, [])
      else
        match suscan_inspector_feed_step E target insp x with
        | Except.error insp1 => (insp1, -1, [])
        | Except.ok insp1 =>
            let emitted := if insp1.sym_new_sample then [insp1.sym_sampler_output] else []
            let rest := suscan_inspector_feed_go E target insp1 xs
            if rest.2.1 < 0 then (rest.1, -1, emitted ++ rest.2.2)
            else (rest.1, rest.2.1 + 1, emitted ++ rest.2.2)

/-- Embedding of `suscan_inspector_feed_bulk` (part_000:146-224): clears
`sym_new_sample`, computes `samp_phase_samples = params.sym_phase *
sym_period` once (its imaginary part is zero, so it is carried as a real),
and runs the inner loop. -/
def suscan_inspector_feed_bulk {R D N A K : Type} [LinearOrderedField R] [FloorRing R]
    (E : Externals R D N A K) (insp : Inspector R D N A K) (xs : List (Cplx R)) :
    Inspector R D N A K × Int × List (Cplx R) :=
  suscan_inspector_feed_go E (insp.params.sym_phase * insp.sym_period)
    { insp with sym_new_sample := false } xs

/-! ## Properties of the sample-feed pipeline -/

theorem suscan_inspector_feed_step_error_frame {R D N A K : Type}
    [LinearOrderedField R] [FloorRing R]
    (E : Externals R D N A K) (t : R) (insp insp1 : Inspector R D N A K) (x : Cplx R)
    (h : suscan_inspector_feed_step E t insp x = Except.error insp1) :
    insp1.state = insp.state ∧ insp1.params = insp.params ∧
    insp1.sym_period = insp.sym_period ∧ insp1.sym_phase = insp.sym_phase ∧
    insp1.sym_new_sample = insp.sym_new_sample ∧
    insp1.sym_sampler_output = insp.sym_sampler_output ∧
    insp1.sym_last_sample = insp.sym_last_sample := by
  unfold suscan_inspector_feed_step at h
  iterate 16 (all_goals (try split at h); all_goals (try simp only [] at h))
  all_goals (try (injection h with h))
  all_goals (try subst h)
  all_goals (first | exact ⟨rfl, rfl, rfl, rfl, rfl, rfl, rfl⟩ | injection h)

theorem suscan_inspector_feed_step_ok_frame {R D N A K : Type}
    [LinearOrderedField R] [FloorRing R]
    (E : Externals R D N A K) (t : R) (insp insp1 : Inspector R D N A K) (x : Cplx R)
    (h : suscan_inspector_feed_step E t insp x = Except.ok insp1) :
    insp1.state = insp.state ∧ insp1.params = insp.params ∧
    insp1.sym_period = insp.sym_period := by
  unfold suscan_inspector_feed_step at h
  iterate 16 (all_goals (try split at h); all_goals (try simp only [] at h))
  all_goals (try (injection h with h))
  all_goals (try subst h)
  all_goals (first | exact ⟨rfl, rfl, rfl⟩ | injection h)

theorem suscan_inspector_feed_step_ok_disabled {R D N A K : Type}
    [LinearOrderedField R] [FloorRing R]
    (E : Externals R D N A K) (t : R) (insp insp1 : Inspector R D N A K) (x : Cplx R)
    (hp : insp.sym_period < 1)
    (h : suscan_inspector_feed_step E t insp x = Except.ok insp1) :
    insp1.sym_phase = insp.sym_phase ∧
    insp1.sym_new_sample = insp.sym_new_sample ∧
    insp1.sym_sampler_output = insp.sym_sampler_output := by
  unfold suscan_inspector_feed_step at h
  iterate 16 (all_goals (try split at h); all_goals (try simp only [] at h))
  all_goals (try (injection h with h))
  all_goals (try subst h)
  all_goals (try exact ⟨rfl, rfl, rfl⟩)
  all_goals (try injection h)
  all_goals ((try simp_all only []); (try linarith))

theorem suscan_inspector_feed_step_ok_active {R D N A K : Type}
    [LinearOrderedField R] [FloorRing R]
    (E : Externals R D N A K) (t : R) (insp insp1 : Inspector R D N A K) (x : Cplx R)
    (hp : 1 ≤ insp.sym_period)
    (h : suscan_inspector_feed_step E t insp x = Except.ok insp1) :
    insp1.sym_phase =
      (if insp.sym_period ≤ insp.sym_phase + 1 then insp.sym_phase + 1 - insp.sym_period
        else insp.sym_phase + 1) ∧
    (insp1.sym_new_sample = true ↔ ⌊insp1.sym_phase - t⌋ = 0) ∧
    (insp1.sym_new_sample = true →
      insp1.sym_sampler_output =
        Cplx.smul ((1 : R) / 2)
          (Cplx.add
            (Cplx.smul (1 - (insp1.sym_phase - ((⌊insp1.sym_phase⌋ : Int) : R)))
              insp.sym_last_sample)
            (Cplx.smul (insp1.sym_phase - ((⌊insp1.sym_phase⌋ : Int) : R))
              insp1.sym_last_sample))) := by
  unfold suscan_inspector_feed_step at h
  iterate 16 (all_goals (try split at h); all_goals (try simp only [] at h))
  all_goals (try (injection h with h))
  all_goals (try subst h)
  all_goals (try injection h)
  all_goals (try simp_all)
  all_goals (split <;> first | rfl | linarith)

theorem suscan_inspector_feed_go_halt {R D N A K : Type}
    [LinearOrderedField R] [FloorRing R]
    (E : Externals R D N A K) (t : R) (insp : Inspector R D N A K)
    (xs : List (Cplx R)) (h : insp.sym_new_sample = true) :
    suscan_inspector_feed_go E t insp xs = (insp, 0, []) := by
  cases xs with
  | nil => rfl
  | cons x xs => simp [suscan_inspector_feed_go, h]

theorem suscan_inspector_feed_go_frame {R D N A K : Type}
    [LinearOrderedField R] [FloorRing R]
    (E : Externals R D N A K) (t : R) :
    ∀ (xs : List (Cplx R)) (insp : Inspector R D N A K),
      (suscan_inspector_feed_go E t insp xs).1.state = insp.state ∧
      (suscan_inspector_feed_go E t insp xs).1.params = insp.params ∧
      (suscan_inspector_feed_go E t insp xs).1.sym_period = insp.sym_period := by
  intro xs
  induction xs with
  | nil => intro insp; exact ⟨rfl, rfl, rfl⟩
  | cons x xs ih =>
      intro insp
      by_cases hflag : insp.sym_new_sample = true
      · rw [suscan_inspector_feed_go_halt E t insp (x :: xs) hflag]
        exact ⟨rfl, rfl, rfl⟩
      · have hflag1 : insp.sym_new_sample = false := by
          cases hsy : insp.sym_new_sample
          · rfl
          · exact absurd hsy hflag
        cases hstep : suscan_inspector_feed_step E t insp x with
        | error e =>
            have hf := suscan_inspector_feed_step_error_frame E t insp e x hstep
            simp [suscan_inspector_feed_go, hflag1, hstep, hf.1, hf.2.1, hf.2.2.1]
        | ok e =>
            have hf := suscan_inspector_feed_step_ok_frame E t insp e x hstep
            have hr := ih e
            simp only [suscan_inspector_feed_go, hflag1, hstep, Bool.false_eq_true,
              if_false]
            split
            · exact ⟨hr.1.trans hf.1, hr.2.1.trans hf.2.1, hr.2.2.trans hf.2.2⟩
            · exact ⟨hr.1.trans hf.1, hr.2.1.trans hf.2.1, hr.2.2.trans hf.2.2⟩

theorem suscan_inspector_feed_go_disabled {R D N A K : Type}
    [LinearOrderedField R] [FloorRing R]
    (E : Externals R D N A K) (t : R) :
    ∀ (xs : List (Cplx R)) (insp : Inspector R D N A K),
      insp.sym_period < 1 → insp.sym_new_sample = false →
      (suscan_inspector_feed_go E t insp xs).1.sym_phase = insp.sym_phase ∧
      (suscan_inspector_feed_go E t insp xs).1.sym_sampler_output =
        insp.sym_sampler_output ∧
      (suscan_inspector_feed_go E t insp xs).1.sym_new_sample = false ∧
      (suscan_inspector_feed_go E t insp xs).2.2 = [] := by
  intro xs
  induction xs with
  | nil => intro insp hp hflag; exact ⟨rfl, rfl, hflag, rfl⟩
  | cons x xs ih =>
      intro insp hp hflag
      cases hstep : suscan_inspector_feed_step E t insp x with
      | error e =>
          have hf := suscan_inspector_feed_step_error_frame E t insp e x hstep
          simp [suscan_inspector_feed_go, hflag, hstep, hf.2.2.2.1, hf.2.2.2.2.1,
            hf.2.2.2.2.2.1]
      | ok e =>
          have hf := suscan_inspector_feed_step_ok_frame E t insp e x hstep
          have hd := suscan_inspector_feed_step_ok_disabled E t insp e x hp hstep
          have hpe : e.sym_period < 1 := by rw [hf.2.2]; exact hp
          have hfe : e.sym_new_sample = false := by rw [hd.2.1]; exact hflag
          have hrec := ih e hpe hfe
          simp only [suscan_inspector_feed_go, hflag, hstep, Bool.false_eq_true,
            if_false, hfe]
          split
          · exact ⟨hrec.1.trans hd.1, hrec.2.1.trans hd.2.2, hrec.2.2.1, by
              simp [hrec.2.2.2]⟩
          · exact ⟨hrec.1.trans hd.1, hrec.2.1.trans hd.2.2, hrec.2.2.1, by
              simp [hrec.2.2.2]⟩

theorem suscan_inspector_feed_go_spec {R D N A K : Type}
    [LinearOrderedField R] [FloorRing R]
    (E : Externals R D N A K) (t : R) :
    ∀ (xs : List (Cplx R)) (insp : Inspector R D N A K),
      insp.sym_new_sample = false →
      0 ≤ (suscan_inspector_feed_go E t insp xs).2.1 →
      (suscan_inspector_feed_go E t insp xs).2.1 ≤ xs.length ∧
      (suscan_inspector_feed_go E t insp xs).2.2.length ≤ 1 ∧
      ((suscan_inspector_feed_go E t insp xs).1.sym_new_sample = true ↔
        (suscan_inspector_feed_go E t insp xs).2.2.length = 1) ∧
      ((suscan_inspector_feed_go E t insp xs).2.1 < (xs.length : Int) →
        (suscan_inspector_feed_go E t insp xs).1.sym_new_sample = true) ∧
      ((suscan_inspector_feed_go E t insp xs).1.sym_new_sample = false →
        (suscan_inspector_feed_go E t insp xs).2.1 = xs.length) ∧
      suscan_inspector_feed_go E t insp
          (xs.take (suscan_inspector_feed_go E t insp xs).2.1.toNat) =
        suscan_inspector_feed_go E t insp xs := by
  intro xs
  induction xs with
  | nil =>
      intro insp hflag hpos
      refine ⟨by simp [suscan_inspector_feed_go], by simp [suscan_inspector_feed_go],
        ?_, ?_, ?_, rfl⟩
      · simp [suscan_inspector_feed_go, hflag]
      · simp [suscan_inspector_feed_go]
      · intro _; simp [suscan_inspector_feed_go]
  | cons x xs ih =>
      intro insp hflag hpos
      cases hstep : suscan_inspector_feed_step E t insp x with
      | error e =>
          exfalso
          rw [show (suscan_inspector_feed_go E t insp (x :: xs)).2.1 = -1 by
            simp [suscan_inspector_feed_go, hflag, hstep]] at hpos
          omega
      | ok e =>
          by_cases hfl : e.sym_new_sample = true
          · have hrest := suscan_inspector_feed_go_halt E t e xs hfl
            have hgo : suscan_inspector_feed_go E t insp (x :: xs) =
                (e, 1, [e.sym_sampler_output]) := by
              simp [suscan_inspector_feed_go, hflag, hstep, hrest, hfl]
            rw [hgo]
            refine ⟨?_, by simp, by simp [hfl], fun _ => hfl, ?_, ?_⟩
            · simp only [List.length_cons]
              omega
            · intro hco; rw [hfl] at hco; cases hco
            · have h1 : ((1 : Int)).toNat = 1 := rfl
              rw [h1, List.take_succ_cons, List.take_zero]
              simp [suscan_inspector_feed_go, hflag, hstep, hfl]
          · have hfl1 : e.sym_new_sample = false := by
              cases hsy : e.sym_new_sample
              · rfl
              · exact absurd hsy hfl
            by_cases hneg : (suscan_inspector_feed_go E t e xs).2.1 < 0
            · exfalso
              rw [show (suscan_inspector_feed_go E t insp (x :: xs)).2.1 = -1 by
                simp [suscan_inspector_feed_go, hflag, hstep, hfl1, hneg]] at hpos
              omega
            · have hpos1 : 0 ≤ (suscan_inspector_feed_go E t e xs).2.1 :=
                le_of_not_lt hneg
              obtain ⟨i1, i2, i3, i4, i5, i6⟩ := ih e hfl1 hpos1
              have hgo : suscan_inspector_feed_go E t insp (x :: xs) =
                  ((suscan_inspector_feed_go E t e xs).1,
                    (suscan_inspector_feed_go E t e xs).2.1 + 1,
                    (suscan_inspector_feed_go E t e xs).2.2) := by
                simp [suscan_inspector_feed_go, hflag, hstep, hfl1, hneg]
              rw [hgo]
              refine ⟨?_, i2, i3, ?_, ?_, ?_⟩
              · simp only [List.length_cons]
                omega
              · intro hlt
                apply i4
                simp only [List.length_cons] at hlt
                omega
              · intro hco
                have := i5 hco
                simp only [List.length_cons]
                omega
              · have htn : ((suscan_inspector_feed_go E t e xs).2.1 + 1).toNat =
                    (suscan_inspector_feed_go E t e xs).2.1.toNat + 1 := by omega
                rw [htn, List.take_succ_cons]
                simp only [suscan_inspector_feed_go, hflag, hstep, Bool.false_eq_true,
                  if_false, i6, hfl1]
                simp [hneg]

/-- C2: for every inspector and every input buffer, `feed_bulk` consumes
samples in order and returns the number consumed; it stops early exactly
when a symbol sample is produced, and on exit `sym_new_sample` is true if
and only if exactly one symbol was emitted during the call — never two or
more.  The last conjunct states in-order consumption: the call is fully
determined by the prefix of samples it consumed. -/
theorem suscan_inspector_feed_bulk_consumes {R D N A K : Type}
    [LinearOrderedField R] [FloorRing R]
    (E : Externals R D N A K) (insp : Inspector R D N A K) (xs : List (Cplx R))
    (h : 0 ≤ (suscan_inspector_feed_bulk E insp xs).2.1) :
    (suscan_inspector_feed_bulk E insp xs).2.1 ≤ xs.length ∧
    (suscan_inspector_feed_bulk E insp xs).2.2.length ≤ 1 ∧
    ((suscan_inspector_feed_bulk E insp xs).1.sym_new_sample = true ↔
      (suscan_inspector_feed_bulk E insp xs).2.2.length = 1) ∧
    ((suscan_inspector_feed_bulk E insp xs).2.1 < (xs.length : Int) →
      (suscan_inspector_feed_bulk E insp xs).1.sym_new_sample = true) ∧
    ((suscan_inspector_feed_bulk E insp xs).1.sym_new_sample = false →
      (suscan_inspector_feed_bulk E insp xs).2.1 = xs.length) ∧
    suscan_inspector_feed_bulk E insp
        (xs.take (suscan_inspector_feed_bulk E insp xs).2.1.toNat) =
      suscan_inspector_feed_bulk E insp xs :=
  suscan_inspector_feed_go_spec E (insp.params.sym_phase * insp.sym_period) xs
    { insp with sym_new_sample := false } rfl h

/-- Rational-valued externals for concrete runs: detector feeds always
succeed and every DSP primitive returns a fixed value, so only the control
flow and the sampler arithmetic of the embedded source are exercised. -/
def QExt : Externals ℚ Unit Unit Unit Unit :=
  ⟨fun _ _ => some (), fun _ => (1, 0), fun _ => 0, fun _ => 1000,
    fun u => (u, (1, 0)), fun u _ => u, fun u z => (u, z), fun u _ => u,
    fun _ => (1, 0)⟩

/-- Default parameter block for concrete runs. -/
def QParams : InspParams ℚ := ⟨0, FcCtrl.manual, 0, 0, 0, 0⟩

/-- Concrete rational inspector with the given state, symbol period, symbol
phase and sampler flag. -/
def QInsp (s : AsyncState) (period phase : ℚ) (flag : Bool) :
    Inspector ℚ Unit Unit Unit Unit :=
  ⟨s, QParams, (), (), (), (1, 0), (), (), (), period, phase, (0, 0), (0, 0), flag⟩

theorem QRun1_eq : suscan_inspector_feed_bulk QExt (QInsp AsyncState.running 2 0 false)
    [((0 : ℚ), (0 : ℚ)), (0, 0), (0, 0)] =
    (⟨AsyncState.running, QParams, (), (), (), (1, 0), (), (), (), 2, 0,
      (7071/2500, 0), (7071/5000, 0), true⟩, 2, [(7071/5000, 0)]) := by
  norm_num [suscan_inspector_feed_bulk, suscan_inspector_feed_go,
    suscan_inspector_feed_step, QExt, QInsp, QParams, Cplx.mul, Cplx.conj,
    Cplx.add, Cplx.smul]

/-- Witness for C2: with symbol period 2 and three input samples, the call
consumes two of the three samples, emits exactly one symbol and raises the
flag, as scenario S5 of the specification describes. -/
theorem suscan_inspector_feed_bulk_consumes_witness :
    0 ≤ (suscan_inspector_feed_bulk QExt (QInsp AsyncState.running 2 0 false)
        [((0 : ℚ), (0 : ℚ)), (0, 0), (0, 0)]).2.1 ∧
    ((suscan_inspector_feed_bulk QExt (QInsp AsyncState.running 2 0 false)
        [((0 : ℚ), (0 : ℚ)), (0, 0), (0, 0)]).2.1 ≤
        ([((0 : ℚ), (0 : ℚ)), (0, 0), (0, 0)] : List (Cplx ℚ)).length ∧
      (suscan_inspector_feed_bulk QExt (QInsp AsyncState.running 2 0 false)
        [((0 : ℚ), (0 : ℚ)), (0, 0), (0, 0)]).2.2.length ≤ 1 ∧
      ((suscan_inspector_feed_bulk QExt (QInsp AsyncState.running 2 0 false)
        [((0 : ℚ), (0 : ℚ)), (0, 0), (0, 0)]).1.sym_new_sample = true ↔
        (suscan_inspector_feed_bulk QExt (QInsp AsyncState.running 2 0 false)
          [((0 : ℚ), (0 : ℚ)), (0, 0), (0, 0)]).2.2.length = 1) ∧
      ((suscan_inspector_feed_bulk QExt (QInsp AsyncState.running 2 0 false)
        [((0 : ℚ), (0 : ℚ)), (0, 0), (0, 0)]).2.1 <
          (([((0 : ℚ), (0 : ℚ)), (0, 0), (0, 0)] : List (Cplx ℚ)).length : Int) →
        (suscan_inspector_feed_bulk QExt (QInsp AsyncState.running 2 0 false)
          [((0 : ℚ), (0 : ℚ)), (0, 0), (0, 0)]).1.sym_new_sample = true) ∧
      ((suscan_inspector_feed_bulk QExt (QInsp AsyncState.running 2 0 false)
        [((0 : ℚ), (0 : ℚ)), (0, 0), (0, 0)]).1.sym_new_sample = false →
        (suscan_inspector_feed_bulk QExt (QInsp AsyncState.running 2 0 false)
          [((0 : ℚ), (0 : ℚ)), (0, 0), (0, 0)]).2.1 =
          ([((0 : ℚ), (0 : ℚ)), (0, 0), (0, 0)] : List (Cplx ℚ)).length) ∧
      suscan_inspector_feed_bulk QExt (QInsp AsyncState.running 2 0 false)
          (([((0 : ℚ), (0 : ℚ)), (0, 0), (0, 0)] : List (Cplx ℚ)).take
            (suscan_inspector_feed_bulk QExt (QInsp AsyncState.running 2 0 false)
              [((0 : ℚ), (0 : ℚ)), (0, 0), (0, 0)]).2.1.toNat) =
        suscan_inspector_feed_bulk QExt (QInsp AsyncState.running 2 0 false)
          [((0 : ℚ), (0 : ℚ)), (0, 0), (0, 0)]) :=
  ⟨by rw [QRun1_eq]; decide, suscan_inspector_feed_bulk_consumes QExt
    (QInsp AsyncState.running 2 0 false)
    [((0 : ℚ), (0 : ℚ)), (0, 0), (0, 0)] (by rw [QRun1_eq]; decide)⟩

/-- C3: the fractional symbol sampler runs only when `sym_period >= 1` —
with `sym_period < 1` no sample of any buffer changes the sampler state or
emits a symbol — and when active, a step advances `sym_phase` by one,
reduces it modulo `sym_period` by conditional subtraction, fires exactly
when `floor(sym_phase - target) = 0` for `target = params.sym_phase *
sym_period`, and then emits `0.5 * ((1 - alpha) * sym_last_sample + alpha *
sample)` with `alpha = sym_phase - floor(sym_phase)`. -/
theorem suscan_inspector_sampler_rule {R D N A K : Type}
    [LinearOrderedField R] [FloorRing R] :
    (∀ (E : Externals R D N A K) (insp : Inspector R D N A K) (xs : List (Cplx R)),
        insp.sym_period < 1 →
        (suscan_inspector_feed_bulk E insp xs).1.sym_phase = insp.sym_phase ∧
        (suscan_inspector_feed_bulk E insp xs).1.sym_sampler_output =
          insp.sym_sampler_output ∧
        (suscan_inspector_feed_bulk E insp xs).1.sym_new_sample = false ∧
        (suscan_inspector_feed_bulk E insp xs).2.2 = []) ∧
    (∀ (E : Externals R D N A K) (insp insp1 : Inspector R D N A K) (x : Cplx R),
        1 ≤ insp.sym_period →
        suscan_inspector_feed_step E (insp.params.sym_phase * insp.sym_period)
          insp x = Except.ok insp1 →
        insp1.sym_phase =
          (if insp.sym_period ≤ insp.sym_phase + 1
            then insp.sym_phase + 1 - insp.sym_period else insp.sym_phase + 1) ∧
        (insp1.sym_new_sample = true ↔
          ⌊insp1.sym_phase - insp.params.sym_phase * insp.sym_period⌋ = 0) ∧
        (insp1.sym_new_sample = true →
          insp1.sym_sampler_output =
            Cplx.smul ((1 : R) / 2)
              (Cplx.add
                (Cplx.smul (1 - (insp1.sym_phase - ((⌊insp1.sym_phase⌋ : Int) : R)))
                  insp.sym_last_sample)
                (Cplx.smul (insp1.sym_phase - ((⌊insp1.sym_phase⌋ : Int) : R))
                  insp1.sym_last_sample)))) := by
  constructor
  · intro E insp xs hp
    exact suscan_inspector_feed_go_disabled E
      (insp.params.sym_phase * insp.sym_period) xs
      { insp with sym_new_sample := false } hp rfl
  · intro E insp insp1 x hp hstep
    exact suscan_inspector_feed_step_ok_active E _ insp insp1 x hp hstep

/-- Inspector produced by one active sampler step from
`QInsp AsyncState.running 10 9 false` on the zero sample. -/
def QFired : Inspector ℚ Unit Unit Unit Unit :=
  ⟨AsyncState.running, QParams, (), (), (), (1, 0), (), (), (), 10, 0,
    (7071/2500, 0), (0, 0), true⟩

/-- Witness for C3: a period below one leaves the sampler untouched over a
whole buffer, and an active step with period 10 and phase 9 wraps the phase
to zero and fires. -/
theorem suscan_inspector_sampler_rule_witness :
    (QInsp AsyncState.running (1/2) 5 false).sym_period < 1 ∧
    (suscan_inspector_feed_bulk QExt (QInsp AsyncState.running (1/2) 5 false)
        [((0 : ℚ), (0 : ℚ))]).1.sym_new_sample = false ∧
    (suscan_inspector_feed_bulk QExt (QInsp AsyncState.running (1/2) 5 false)
        [((0 : ℚ), (0 : ℚ))]).1.sym_phase =
      (QInsp AsyncState.running (1/2) 5 false).sym_phase ∧
    1 ≤ (QInsp AsyncState.running 10 9 false).sym_period ∧
    suscan_inspector_feed_step QExt
        ((QInsp AsyncState.running 10 9 false).params.sym_phase *
          (QInsp AsyncState.running 10 9 false).sym_period)
        (QInsp AsyncState.running 10 9 false) ((0 : ℚ), (0 : ℚ)) =
      Except.ok QFired ∧
    QFired.sym_phase =
      (if (QInsp AsyncState.running 10 9 false).sym_period ≤
          (QInsp AsyncState.running 10 9 false).sym_phase + 1
        then (QInsp AsyncState.running 10 9 false).sym_phase + 1 -
          (QInsp AsyncState.running 10 9 false).sym_period
        else (QInsp AsyncState.running 10 9 false).sym_phase + 1) ∧
    (QFired.sym_new_sample = true ↔
      ⌊QFired.sym_phase -
        (QInsp AsyncState.running 10 9 false).params.sym_phase *
          (QInsp AsyncState.running 10 9 false).sym_period⌋ = 0) := by
  have h1 : (QInsp AsyncState.running (1/2) 5 false).sym_period < 1 := by
    norm_num [QInsp]
  have h2 : 1 ≤ (QInsp AsyncState.running 10 9 false).sym_period := by
    norm_num [QInsp]
  have hstep : suscan_inspector_feed_step QExt
      ((QInsp AsyncState.running 10 9 false).params.sym_phase *
        (QInsp AsyncState.running 10 9 false).sym_period)
      (QInsp AsyncState.running 10 9 false) ((0 : ℚ), (0 : ℚ)) =
      Except.ok QFired := by
    norm_num [suscan_inspector_feed_step, QExt, QInsp, QParams, QFired,
      Cplx.mul, Cplx.conj, Cplx.add, Cplx.smul]
  exact ⟨h1, (suscan_inspector_sampler_rule.1 QExt _ _ h1).2.2.1,
    (suscan_inspector_sampler_rule.1 QExt _ _ h1).1, h2, hstep,
    (suscan_inspector_sampler_rule.2 QExt _ QFired _ h2 hstep).1,
    (suscan_inspector_sampler_rule.2 QExt _ QFired _ h2 hstep).2.1⟩

/-- Counterexample for C9: `feed_bulk` with an empty buffer does modify a
field of the inspector — line 159 of the source clears `sym_new_sample`
before the loop, so an inspector entering with the flag raised (as happens
on every worker call that follows an emission) comes back changed. -/
theorem suscan_inspector_feed_bulk_empty_clears_flag :
    (QInsp AsyncState.running 0 0 true).sym_new_sample = true ∧
    (suscan_inspector_feed_bulk QExt (QInsp AsyncState.running 0 0 true)
        ([] : List (Cplx ℚ))).2.1 = 0 ∧
    (suscan_inspector_feed_bulk QExt (QInsp AsyncState.running 0 0 true)
        ([] : List (Cplx ℚ))).1.sym_new_sample = false ∧
    (suscan_inspector_feed_bulk QExt (QInsp AsyncState.running 0 0 true)
        ([] : List (Cplx ℚ))).1 ≠ QInsp AsyncState.running 0 0 true := by
  refine ⟨rfl, rfl, rfl, fun hcon => ?_⟩
  have hflag := congrArg Inspector.sym_new_sample hcon
  exact Bool.noConfusion hflag

/-- C9 (amended): `feed_bulk` with `count = 0` returns 0, emits nothing and
modifies no field of the inspector other than clearing `sym_new_sample`;
in particular an inspector whose flag is already clear is returned
unchanged. -/
theorem suscan_inspector_feed_bulk_empty_frame {R D N A K : Type}
    [LinearOrderedField R] [FloorRing R]
    (E : Externals R D N A K) (insp : Inspector R D N A K) :
    suscan_inspector_feed_bulk E insp [] =
      ({ insp with sym_new_sample := false }, 0, []) ∧
    (insp.sym_new_sample = false →
      suscan_inspector_feed_bulk E insp [] = (insp, 0, [])) := by
  refine ⟨rfl, fun h => ?_⟩
  have hrec : ({ insp with sym_new_sample := false } : Inspector R D N A K) = insp := by
    obtain ⟨s, p, fd, nd, l, ph, a, c2, c4, sp, sph, sl, so, sn⟩ := insp
    cases sn
    · rfl
    · exact Bool.noConfusion h
  rw [show suscan_inspector_feed_bulk E insp [] =
      ({ insp with sym_new_sample := false }, 0, []) from rfl, hrec]

/-- Witness for the amended C9: a flag-clear inspector passes through an
empty feed unchanged. -/
theorem suscan_inspector_feed_bulk_empty_frame_witness :
    (QInsp AsyncState.running 0 0 false).sym_new_sample = false ∧
    suscan_inspector_feed_bulk QExt (QInsp AsyncState.running 0 0 false)
        ([] : List (Cplx ℚ)) = (QInsp AsyncState.running 0 0 false, 0, []) :=
  ⟨rfl, (suscan_inspector_feed_bulk_empty_frame QExt _).2 rfl⟩

/-! ## Control protocol handler (src/unnamed/part_000)

The analyzer owns an append-indexed inspector table (`inspector_list` with
`inspector_count` its length); a tombstoned slot holds `none`.  The
construction of a new inspector (`suscan_inspector_new`) and the worker-pool
push (`suscan_analyzer_push_task`) call into external collaborators, so the
handler takes their outcomes as arguments: `newInsp` is the inspector built
for an OPEN request (or `none` on allocation failure), `allocOk` the success
of `PTR_LIST_APPEND_CHECK`, `pushOk` the success of the task push, and
`cexp` the complex exponential of the math library (`SU_C_EXP`). -/

/-- Message kinds of `enum suscan_analyzer_inspector_msg_kind`; `other` covers
every kind the dispatch switch does not recognise. -/
inductive MsgKind where
  | mOPEN
  | mGET_INFO
  | mGET_PARAMS
  | mPARAMS
  | mCLOSE
  | mINFO
  | mWRONG_HANDLE
  | mWRONG_KIND
  | other (code : Nat)
  deriving DecidableEq

/-- Inspector control message (`struct suscan_analyzer_inspector_msg`),
mutated in place by the handler into the response.  The `channel` field is
consumed only by the external inspector constructor and is therefore not
carried here; `req_id` is copied back unchanged and plays no role in the
handler. -/
structure InspectorMsg (R : Type) where
  kind : MsgKind
  handle : Int
  params : InspParams R
  baud_fac : R
  baud_nln : R
  inspector_id : Nat
  status : MsgKind
  deriving DecidableEq

/-- Analyzer state visible to the inspector-message handler: the inspector
table. -/
structure SuscanAnalyzer (R D N A K : Type) where
  inspector_list : List (Option (Inspector R D N A K))

/-- Embedding of `suscan_analyzer_get_inspector` (part_000:310-326): the
lookup succeeds iff the handle is in range, the slot is not a tombstone and
the stored inspector is in the Running state. -/
def suscan_analyzer_get_inspector {R D N A K : Type}
    (a : SuscanAnalyzer R D N A K) (handle : Int) :
    Option (Inspector R D N A K) :=
  if handle < 0 ∨ (a.inspector_list.length : Int) ≤ handle then none
  else
    match a.inspector_list.getD handle.toNat none with
    | none => none
    | some brinsp =>
        if brinsp.state ≠ AsyncState.running then none else some brinsp

/-- Embedding of `suscan_analyzer_dispose_inspector_handle`
(part_000:328-342): tombstone the slot, failing on an out-of-range handle or
a slot that is already a tombstone. -/
def suscan_analyzer_dispose_inspector_handle {R D N A K : Type}
    (a : SuscanAnalyzer R D N A K) (handle : Int) :
    SuscanAnalyzer R D N A K × Bool :=
  if handle < 0 ∨ (a.inspector_list.length : Int) ≤ handle then (a, false)
  else
    match a.inspector_list.getD handle.toNat none with
    | none => (a, false)
    | some _ => (⟨a.inspector_list.set handle.toNat none⟩, true)

/-- Embedding of `suscan_analyzer_register_inspector` (part_000:344-371).
A non-Created inspector is rejected with `SU_FALSE`, which is the integer 0;
an append failure or a push failure returns -1, the latter after tombstoning
the freshly appended slot.  On success the inspector is appended, marked
Running, and its handle (the old table length) returned. -/
def suscan_analyzer_register_inspector {R D N A K : Type}
    (a : SuscanAnalyzer R D N A K) (brinsp : Inspector R D N A K)
    (allocOk pushOk : Bool) : SuscanAnalyzer R D N A K × Int :=
  if brinsp.state ≠ AsyncState.created then (a, 0)
  else if !allocOk then (a, -1)
  else
    let hnd : Int := a.inspector_list.length
    let a1 : SuscanAnalyzer R D N A K :=
      ⟨a.inspector_list ++ [some { brinsp with state := AsyncState.running }]⟩
    if pushOk then (a1, hnd)
    else ((suscan_analyzer_dispose_inspector_handle a1 hnd).1, -1)

/-- Embedding of `suscan_analyzer_parse_inspector_msg` (part_000:377-509).
Returns the analyzer after the request and the response message written to
the output queue, or `none` for the failure paths that produce no response
(OPEN whose construction or registration fails).  The final
`msg->inspector_id` assignment for a request that resolved an inspector is
folded into each branch, exactly as the source leaves `insp` non-null. -/
def suscan_analyzer_parse_inspector_msg {R D N A K : Type}
    [LinearOrderedField R] [FloorRing R]
    (E : Externals R D N A K) (cexp : R → Cplx R)
    (a : SuscanAnalyzer R D N A K) (msg : InspectorMsg R)
    (newInsp : Option (Inspector R D N A K)) (allocOk pushOk : Bool) :
    SuscanAnalyzer R D N A K × Option (InspectorMsg R) :=
  match msg.kind with
  | MsgKind.mOPEN =>
      match newInsp with
      | none => (a, none)
      | some ni =>
          let res := suscan_analyzer_register_inspector a ni allocOk pushOk
          if res.2 = -1 then (res.1, none)
          else (res.1, some { msg with handle := res.2 })
  | MsgKind.mGET_INFO =>
      match suscan_analyzer_get_inspector a msg.handle with
      | none => (a, some { msg with kind := MsgKind.mWRONG_HANDLE })
      | some insp =>
          (a, some { msg with kind := MsgKind.mINFO, baud_fac := E.det_baud insp.fac_baud_det, baud_nln := E.det_baud insp.nln_baud_det, inspector_id := insp.params.inspector_id })
  | MsgKind.mGET_PARAMS =>
      match suscan_analyzer_get_inspector a msg.handle with
      | none => (a, some { msg with kind := MsgKind.mWRONG_HANDLE })
      | some insp =>
          (a, some { msg with kind := MsgKind.mPARAMS, params := insp.params, inspector_id := insp.params.inspector_id })
  | MsgKind.mPARAMS =>
      match suscan_analyzer_get_inspector a msg.handle with
      | none => (a, some { msg with kind := MsgKind.mWRONG_HANDLE })
      | some insp =>
          -- insp->params = msg->params; fs = fac_baud_det->params.samp_rate
          let fs := E.det_samp_rate insp.fac_baud_det
          -- sym_period = 1 / SU_ABS2NORM_BAUD(fs, baud) when baud > 0, else 0;
          -- SU_ABS2NORM_BAUD(fs, b) = b / fs (sigutils sampling.h)
          let insp1 : Inspector R D N A K :=
            { insp with
              params := msg.params,
              sym_period :=
                if 0 < msg.params.baud then 1 / (msg.params.baud / fs) else 0,
              -- su_ncqo_set_freq with SU_ABS2NORM_FREQ(fs, f) = 2 * f / fs
              lo := E.ncqo_set_freq insp.lo (2 * msg.params.fc_off / fs),
              -- insp->phase = SU_C_EXP(I * fc_phi)
              phase := cexp msg.params.fc_phi }
          (⟨a.inspector_list.set msg.handle.toNat (some insp1)⟩,
            some { msg with kind := MsgKind.mPARAMS, inspector_id := msg.params.inspector_id })
  | MsgKind.mCLOSE =>
      match suscan_analyzer_get_inspector a msg.handle with
      | none => (a, some { msg with kind := MsgKind.mWRONG_HANDLE })
      | some insp =>
          let msg1 := { msg with inspector_id := insp.params.inspector_id }
          if insp.state = AsyncState.halted then
            -- dispose handle and destroy inspector
            ((suscan_analyzer_dispose_inspector_handle a msg.handle).1, some msg1)
          else
            -- mark as Halting so the worker will not reschedule it
            (⟨a.inspector_list.set msg.handle.toNat
                (some { insp with state := AsyncState.halting })⟩, some msg1)
  | k => (a, some { msg with status := k, kind := MsgKind.mWRONG_KIND })

/-- Inner loop of the worker callback (part_000:257-283): feed the inspector
from the remaining samples until the buffer is exhausted, remembering
whether any symbol was emitted (whether `batch_msg` was allocated).  `fuel`
bounds the number of feed calls; the callback passes the buffer length,
which suffices because every successful feed of a non-empty buffer consumes
at least one sample.  Returns the inspector, whether every feed succeeded
and the batch flag. -/
def suscan_inspector_wk_feed {R D N A K : Type}
    [LinearOrderedField R] [FloorRing R] (E : Externals R D N A K) :
    Nat → Inspector R D N A K → List (Cplx R) → Bool →
      Inspector R D N A K × Bool × Bool
  | 0, insp, samples, anyBatch => (insp, samples.isEmpty, anyBatch)
  | fuel + 1, insp, samples, anyBatch =>
      if samples.isEmpty then (insp, true, anyBatch)
      else
        if (suscan_inspector_feed_bulk E insp samples).2.1 < 0 then
          ((suscan_inspector_feed_bulk E insp samples).1, false, anyBatch)
        else
          suscan_inspector_wk_feed E fuel
            (suscan_inspector_feed_bulk E insp samples).1
            (samples.drop (suscan_inspector_feed_bulk E insp samples).2.1.toNat)
            (anyBatch || !(suscan_inspector_feed_bulk E insp samples).2.2.isEmpty)

/-- Embedding of `suscan_inspector_wk_cb` (part_000:230-308).  The consumer
binding and the sample acquisition live in external collaborators:
`assertOk` is the outcome of `suscan_consumer_task_state_assert_samples`,
`samples` the acquired buffer and `mqOk` the outcome of the batch-message
write to the output queue (relevant only when a batch was produced).
Returns the updated inspector and the restart flag; on every drop path the
state is set to Halted before the task is removed. -/
def suscan_inspector_wk_cb {R D N A K : Type}
    [LinearOrderedField R] [FloorRing R] (E : Externals R D N A K)
    (insp : Inspector R D N A K) (assertOk : Bool) (samples : List (Cplx R))
    (mqOk : Bool) : Inspector R D N A K × Bool :=
  if insp.state = AsyncState.halting then
    ({ insp with state := AsyncState.halted }, false)
  else if !assertOk then
    ({ insp with state := AsyncState.halted }, false)
  else
    if !(suscan_inspector_wk_feed E samples.length insp samples false).2.1 then
      ({ (suscan_inspector_wk_feed E samples.length insp samples false).1 with
          state := AsyncState.halted }, false)
    else if (suscan_inspector_wk_feed E samples.length insp samples false).2.2 &&
        !mqOk then
      ({ (suscan_inspector_wk_feed E samples.length insp samples false).1 with
          state := AsyncState.halted }, false)
    else ((suscan_inspector_wk_feed E samples.length insp samples false).1, true)

theorem list_getD_append_lt {α : Type} (l l2 : List α) (i : Nat) (d : α)
    (h : i < l.length) : (l ++ l2).getD i d = l.getD i d := by
  induction l generalizing i with
  | nil => cases h
  | cons x xs ih =>
      cases i with
      | zero => rfl
      | succ n => exact ih n (Nat.lt_of_succ_lt_succ h)

theorem list_getD_append_self {α : Type} (l : List α) (x d : α) :
    (l ++ [x]).getD l.length d = x := by
  induction l with
  | nil => rfl
  | cons y ys ih => exact ih

theorem list_getD_len_le {α : Type} (l : List α) (i : Nat) (d : α)
    (h : l.length ≤ i) : l.getD i d = d := by
  induction l generalizing i with
  | nil => cases i <;> rfl
  | cons x xs ih =>
      cases i with
      | zero => exact absurd h (Nat.not_succ_le_zero _)
      | succ n => exact ih n (Nat.le_of_succ_le_succ h)

theorem list_getD_set_self {α : Type} (l : List α) (i : Nat) (v d : α)
    (h : i < l.length) : (l.set i v).getD i d = v := by
  induction l generalizing i with
  | nil => cases h
  | cons x xs ih =>
      cases i with
      | zero => rfl
      | succ n => exact ih n (Nat.lt_of_succ_lt_succ h)

theorem list_getD_set_ne {α : Type} (l : List α) (i j : Nat) (v d : α)
    (h : i ≠ j) : (l.set i v).getD j d = l.getD j d := by
  induction l generalizing i j with
  | nil => rfl
  | cons x xs ih =>
      cases i with
      | zero =>
          cases j with
          | zero => exact absurd rfl h
          | succ m => rfl
      | succ n =>
          cases j with
          | zero => rfl
          | succ m => exact ih n m (fun hc => h (by rw [hc]))

theorem suscan_analyzer_get_inspector_eq_some {R D N A K : Type}
    (a : SuscanAnalyzer R D N A K) (h : Int) (insp : Inspector R D N A K)
    (hg : suscan_analyzer_get_inspector a h = some insp) :
    0 ≤ h ∧ h.toNat < a.inspector_list.length ∧
    a.inspector_list.getD h.toNat none = some insp ∧
    insp.state = AsyncState.running := by
  unfold suscan_analyzer_get_inspector at hg
  split at hg
  · cases hg
  · case isFalse hcond =>
      push_neg at hcond
      cases hslot : a.inspector_list.getD h.toNat none with
      | none => rw [hslot] at hg; cases hg
      | some insp2 =>
          rw [hslot] at hg
          simp only [] at hg
          split at hg
          · cases hg
          · next hst =>
              injection hg with hg
              subst hg
              push_neg at hst
              refine ⟨hcond.1, ?_, rfl, hst⟩
              omega

theorem suscan_analyzer_get_inspector_none_of_bad {R D N A K : Type}
    (a : SuscanAnalyzer R D N A K) (h : Int)
    (hbad : h = -1 ∨ (a.inspector_list.length : Int) ≤ h ∨
      a.inspector_list.getD h.toNat none = none) :
    suscan_analyzer_get_inspector a h = none := by
  unfold suscan_analyzer_get_inspector
  split
  · rfl
  · case isFalse hcond =>
      push_neg at hcond
      rcases hbad with hm | hlen | hslot
      · omega
      · omega
      · rw [hslot]

theorem suscan_analyzer_get_inspector_none_of_not_running {R D N A K : Type}
    (a : SuscanAnalyzer R D N A K) (h : Int) (insp : Inspector R D N A K)
    (hslot : a.inspector_list.getD h.toNat none = some insp)
    (hst : insp.state ≠ AsyncState.running) :
    suscan_analyzer_get_inspector a h = none := by
  unfold suscan_analyzer_get_inspector
  split
  · rfl
  · rw [hslot]
    simp [hst]

/-- C6: `get_inspector` returns an inspector exactly when the handle is in
range, the slot is not a tombstone and the stored inspector is Running; and
every GET_INFO, GET_PARAMS, SET_PARAMS or CLOSE request carrying handle -1,
a handle at or beyond the table length, or a tombstoned handle is answered
with a WRONG_HANDLE response. -/
theorem suscan_handle_validation {R D N A K : Type}
    [LinearOrderedField R] [FloorRing R] :
    (∀ (a : SuscanAnalyzer R D N A K) (h : Int),
        (suscan_analyzer_get_inspector a h).isSome = true ↔
          (0 ≤ h ∧ h < (a.inspector_list.length : Int) ∧
            ∃ insp, a.inspector_list.getD h.toNat none = some insp ∧
              insp.state = AsyncState.running)) ∧
    (∀ (E : Externals R D N A K) (cexp : R → Cplx R)
        (a : SuscanAnalyzer R D N A K) (msg : InspectorMsg R)
        (ni : Option (Inspector R D N A K)) (ao po : Bool),
        (msg.kind = MsgKind.mGET_INFO ∨ msg.kind = MsgKind.mGET_PARAMS ∨
          msg.kind = MsgKind.mPARAMS ∨ msg.kind = MsgKind.mCLOSE) →
        (msg.handle = -1 ∨ (a.inspector_list.length : Int) ≤ msg.handle ∨
          a.inspector_list.getD msg.handle.toNat none = none) →
        (suscan_analyzer_parse_inspector_msg E cexp a msg ni ao po).2 =
          some { msg with kind := MsgKind.mWRONG_HANDLE }) := by
  constructor
  · intro a h
    constructor
    · intro hs
      cases hg : suscan_analyzer_get_inspector a h with
      | none => rw [hg] at hs; cases hs
      | some insp =>
          have hi := suscan_analyzer_get_inspector_eq_some a h insp hg
          exact ⟨hi.1, by omega, insp, hi.2.2.1, hi.2.2.2⟩
    · rintro ⟨h0, hlen, insp, hslot, hrun⟩
      unfold suscan_analyzer_get_inspector
      split
      · omega
      · rw [hslot]
        simp [hrun]
  · intro E cexp a msg ni ao po hkind hbad
    have hg := suscan_analyzer_get_inspector_none_of_bad a msg.handle hbad
    obtain ⟨k, hd, pr, bf, bn, iid, st⟩ := msg
    rcases hkind with hk | hk | hk | hk <;>
      (simp only [] at hk; subst hk;
        simp [suscan_analyzer_parse_inspector_msg, hg])

/-- Control message over the rational carrier for concrete runs. -/
def QMsg (k : MsgKind) (h : Int) : InspectorMsg ℚ :=
  ⟨k, h, QParams, 0, 0, 0, MsgKind.mOPEN⟩

/-- Analyzer whose only slot is a tombstone. -/
def QAnalyzerTomb : SuscanAnalyzer ℚ Unit Unit Unit Unit := ⟨[none]⟩

/-- Analyzer whose only slot holds a Halted inspector. -/
def QAnalyzerHalted : SuscanAnalyzer ℚ Unit Unit Unit Unit :=
  ⟨[some (QInsp AsyncState.halted 0 0 false)]⟩

/-- Analyzer whose only slot holds a Running inspector. -/
def QAnalyzerRun : SuscanAnalyzer ℚ Unit Unit Unit Unit :=
  ⟨[some (QInsp AsyncState.running 0 0 false)]⟩

/-- Placeholder complex exponential for rational runs; its value is never
inspected by the control-flow claims it serves. -/
def QCexp : ℚ → Cplx ℚ := fun _ => (1, 0)

/-- Witness for C6: a CLOSE against the analyzer whose only slot is a
tombstone satisfies the bad-handle condition and receives WRONG_HANDLE. -/
theorem suscan_handle_validation_witness :
    ((QMsg MsgKind.mCLOSE 0).kind = MsgKind.mGET_INFO ∨
      (QMsg MsgKind.mCLOSE 0).kind = MsgKind.mGET_PARAMS ∨
      (QMsg MsgKind.mCLOSE 0).kind = MsgKind.mPARAMS ∨
      (QMsg MsgKind.mCLOSE 0).kind = MsgKind.mCLOSE) ∧
    ((QMsg MsgKind.mCLOSE 0).handle = -1 ∨
      (QAnalyzerTomb.inspector_list.length : Int) ≤ (QMsg MsgKind.mCLOSE 0).handle ∨
      QAnalyzerTomb.inspector_list.getD (QMsg MsgKind.mCLOSE 0).handle.toNat
        none = none) ∧
    (suscan_analyzer_parse_inspector_msg QExt QCexp QAnalyzerTomb
        (QMsg MsgKind.mCLOSE 0) none true true).2 =
      some { QMsg MsgKind.mCLOSE 0 with kind := MsgKind.mWRONG_HANDLE } ∧
    ((suscan_analyzer_get_inspector QAnalyzerTomb 0).isSome = true ↔
      (0 ≤ (0 : Int) ∧ (0 : Int) < (QAnalyzerTomb.inspector_list.length : Int) ∧
        ∃ insp, QAnalyzerTomb.inspector_list.getD (0 : Int).toNat none = some insp ∧
          insp.state = AsyncState.running)) :=
  ⟨Or.inr (Or.inr (Or.inr rfl)), Or.inr (Or.inr rfl),
    (@suscan_handle_validation ℚ Unit Unit Unit Unit _ _).2 QExt QCexp
      QAnalyzerTomb (QMsg MsgKind.mCLOSE 0) none true true
      (Or.inr (Or.inr (Or.inr rfl))) (Or.inr (Or.inr rfl)),
    (@suscan_handle_validation ℚ Unit Unit Unit Unit _ _).1 QAnalyzerTomb 0⟩

/-- Counterexample for C1: a CLOSE whose slot holds a Halted inspector is
rejected by the lookup (`get_inspector` only returns Running inspectors), so
the response kind is WRONG_HANDLE — not CLOSE — and the table is unchanged:
the dispose-and-destroy arm of the CLOSE branch never runs for it. -/
theorem suscan_close_halted_gets_wrong_handle :
    QAnalyzerHalted.inspector_list.getD 0 none =
      some (QInsp AsyncState.halted 0 0 false) ∧
    (QInsp AsyncState.halted 0 0 false).state = AsyncState.halted ∧
    (suscan_analyzer_parse_inspector_msg QExt QCexp QAnalyzerHalted
        (QMsg MsgKind.mCLOSE 0) none true true).2 =
      some { QMsg MsgKind.mCLOSE 0 with kind := MsgKind.mWRONG_HANDLE } ∧
    (suscan_analyzer_parse_inspector_msg QExt QCexp QAnalyzerHalted
        (QMsg MsgKind.mCLOSE 0) none true true).1 = QAnalyzerHalted :=
  ⟨rfl, rfl, rfl, rfl⟩

/-- C1 (amended): a CLOSE whose handle resolves through `get_inspector`
(which requires the inspector to be Running) marks the inspector Halting and
answers with kind CLOSE; a handle whose slot holds an inspector that is not
Running — in particular a Halted one — fails the lookup and is answered
WRONG_HANDLE with the analyzer unchanged.  The dispose-and-destroy arm of
the source is unreachable in the handler itself, because the state it tests
for is filtered out by the lookup that guards it. -/
theorem suscan_close_semantics {R D N A K : Type}
    [LinearOrderedField R] [FloorRing R]
    (E : Externals R D N A K) (cexp : R → Cplx R)
    (a : SuscanAnalyzer R D N A K) (msg : InspectorMsg R)
    (ni : Option (Inspector R D N A K)) (ao po : Bool)
    (hk : msg.kind = MsgKind.mCLOSE) :
    (∀ insp, suscan_analyzer_get_inspector a msg.handle = some insp →
      insp.state = AsyncState.running ∧
      suscan_analyzer_parse_inspector_msg E cexp a msg ni ao po =
        (⟨a.inspector_list.set msg.handle.toNat
            (some { insp with state := AsyncState.halting })⟩,
          some { msg with inspector_id := insp.params.inspector_id })) ∧
    (∀ insp, a.inspector_list.getD msg.handle.toNat none = some insp →
      insp.state ≠ AsyncState.running →
      suscan_analyzer_parse_inspector_msg E cexp a msg ni ao po =
        (a, some { msg with kind := MsgKind.mWRONG_HANDLE })) := by
  constructor
  · intro insp hg
    have hi := suscan_analyzer_get_inspector_eq_some a msg.handle insp hg
    refine ⟨hi.2.2.2, ?_⟩
    obtain ⟨k, hd, pr, bf, bn, iid, st⟩ := msg
    simp only [] at hk
    subst hk
    simp only [suscan_analyzer_parse_inspector_msg, hg]
    rw [if_neg (by rw [hi.2.2.2]; exact fun hco => AsyncState.noConfusion hco)]
  · intro insp hslot hst
    have hg := suscan_analyzer_get_inspector_none_of_not_running a msg.handle
      insp hslot hst
    obtain ⟨k, hd, pr, bf, bn, iid, st⟩ := msg
    simp only [] at hk
    subst hk
    simp [suscan_analyzer_parse_inspector_msg, hg]

/-- Witness for the amended C1: closing the Running inspector of
`QAnalyzerRun` marks it Halting and answers CLOSE; closing the Halted
inspector of `QAnalyzerHalted` answers WRONG_HANDLE. -/
theorem suscan_close_semantics_witness :
    (QMsg MsgKind.mCLOSE 0).kind = MsgKind.mCLOSE ∧
    suscan_analyzer_get_inspector QAnalyzerRun 0 =
      some (QInsp AsyncState.running 0 0 false) ∧
    suscan_analyzer_parse_inspector_msg QExt QCexp QAnalyzerRun
        (QMsg MsgKind.mCLOSE 0) none true true =
      (⟨QAnalyzerRun.inspector_list.set 0
          (some { QInsp AsyncState.running 0 0 false with
            state := AsyncState.halting })⟩,
        some { QMsg MsgKind.mCLOSE 0 with
          inspector_id :=
            (QInsp AsyncState.running 0 0 false).params.inspector_id }) ∧
    suscan_analyzer_parse_inspector_msg QExt QCexp QAnalyzerHalted
        (QMsg MsgKind.mCLOSE 0) none true true =
      (QAnalyzerHalted, some { QMsg MsgKind.mCLOSE 0 with
        kind := MsgKind.mWRONG_HANDLE }) :=
  ⟨rfl, rfl,
    ((suscan_close_semantics QExt QCexp QAnalyzerRun (QMsg MsgKind.mCLOSE 0)
        none true true rfl).1 (QInsp AsyncState.running 0 0 false) rfl).2,
    (suscan_close_semantics QExt QCexp QAnalyzerHalted (QMsg MsgKind.mCLOSE 0)
        none true true rfl).2 (QInsp AsyncState.halted 0 0 false) rfl
      (fun hco => AsyncState.noConfusion hco)⟩

/-- C7: a SET_PARAMS request that resolves to a Running inspector stores the
message parameters, sets `sym_period` to the reciprocal of the normalized
baud — `samp_rate / baud` samples — for positive baud and to 0 otherwise,
sets the NCO frequency to the normalized `fc_off`, and sets the phase rotor
to `exp(i * fc_phi)`, whose squared modulus is exactly 1 in the real-number
idealization of SUFLOAT arithmetic. -/
theorem suscan_set_params_updates {D N A K : Type}
    (E : Externals ℝ D N A K) (a : SuscanAnalyzer ℝ D N A K)
    (msg : InspectorMsg ℝ) (insp : Inspector ℝ D N A K)
    (ni : Option (Inspector ℝ D N A K)) (ao po : Bool)
    (hk : msg.kind = MsgKind.mPARAMS)
    (hg : suscan_analyzer_get_inspector a msg.handle = some insp) :
    ∃ insp1,
      suscan_analyzer_parse_inspector_msg E
          (fun t => (Real.cos t, Real.sin t)) a msg ni ao po =
        (⟨a.inspector_list.set msg.handle.toNat (some insp1)⟩,
          some { msg with kind := MsgKind.mPARAMS, inspector_id := msg.params.inspector_id }) ∧
      insp1.params = msg.params ∧
      insp1.state = insp.state ∧
      insp1.sym_period =
        (if 0 < msg.params.baud then
          1 / (msg.params.baud / E.det_samp_rate insp.fac_baud_det) else 0) ∧
      (0 < msg.params.baud →
        insp1.sym_period = E.det_samp_rate insp.fac_baud_det / msg.params.baud) ∧
      insp1.lo = E.ncqo_set_freq insp.lo
        (2 * msg.params.fc_off / E.det_samp_rate insp.fac_baud_det) ∧
      insp1.phase = (Real.cos msg.params.fc_phi, Real.sin msg.params.fc_phi) ∧
      Cplx.normSq insp1.phase = 1 := by
  obtain ⟨k, hd, pr, bf, bn, iid, st⟩ := msg
  simp only [] at hk
  subst hk
  simp only [suscan_analyzer_parse_inspector_msg, hg]
  refine ⟨_, rfl, rfl, rfl, rfl, ?_, rfl, rfl, ?_⟩
  · intro hb
    simp only [if_pos hb, one_div_div]
  · show Real.cos pr.fc_phi * Real.cos pr.fc_phi +
      Real.sin pr.fc_phi * Real.sin pr.fc_phi = 1
    calc Real.cos pr.fc_phi * Real.cos pr.fc_phi +
          Real.sin pr.fc_phi * Real.sin pr.fc_phi =
        Real.sin pr.fc_phi ^ 2 + Real.cos pr.fc_phi ^ 2 := by ring
      _ = 1 := Real.sin_sq_add_cos_sq pr.fc_phi

/-- Real-valued externals for the SET_PARAMS witness, with a sample rate of
1800000 Hz. -/
def RExt : Externals ℝ Unit Unit Unit Unit :=
  ⟨fun _ _ => some (), fun _ => (1, 0), fun _ => 0, fun _ => 1800000,
    fun u => (u, (1, 0)), fun u _ => u, fun u z => (u, z), fun u _ => u,
    fun _ => (1, 0)⟩

/-- Running real-valued inspector for the SET_PARAMS witness. -/
def RInsp : Inspector ℝ Unit Unit Unit Unit :=
  ⟨AsyncState.running, ⟨0, FcCtrl.manual, 0, 0, 0, 0⟩, (), (), (), (1, 0),
    (), (), (), 0, 0, (0, 0), (0, 0), false⟩

/-- Analyzer holding `RInsp` at handle 0. -/
def RAnalyzer : SuscanAnalyzer ℝ Unit Unit Unit Unit := ⟨[some RInsp]⟩

/-- SET_PARAMS request: baud 1200, inspector id 7. -/
def RMsg : InspectorMsg ℝ :=
  ⟨MsgKind.mPARAMS, 0, ⟨7, FcCtrl.manual, 0, 0, 1200, 0⟩, 0, 0, 0,
    MsgKind.mOPEN⟩

/-- Witness for C7: applying SET_PARAMS with baud 1200 against the
1800000 Hz inspector of `RAnalyzer`. -/
theorem suscan_set_params_updates_witness :
    RMsg.kind = MsgKind.mPARAMS ∧
    suscan_analyzer_get_inspector RAnalyzer RMsg.handle = some RInsp ∧
    (∃ insp1,
      suscan_analyzer_parse_inspector_msg RExt
          (fun t => (Real.cos t, Real.sin t)) RAnalyzer RMsg none true true =
        (⟨RAnalyzer.inspector_list.set RMsg.handle.toNat (some insp1)⟩,
          some { RMsg with kind := MsgKind.mPARAMS, inspector_id := RMsg.params.inspector_id }) ∧
      insp1.params = RMsg.params ∧
      insp1.state = RInsp.state ∧
      insp1.sym_period =
        (if 0 < RMsg.params.baud then
          1 / (RMsg.params.baud / RExt.det_samp_rate RInsp.fac_baud_det) else 0) ∧
      (0 < RMsg.params.baud →
        insp1.sym_period =
          RExt.det_samp_rate RInsp.fac_baud_det / RMsg.params.baud) ∧
      insp1.lo = RExt.ncqo_set_freq RInsp.lo
        (2 * RMsg.params.fc_off / RExt.det_samp_rate RInsp.fac_baud_det) ∧
      insp1.phase = (Real.cos RMsg.params.fc_phi, Real.sin RMsg.params.fc_phi) ∧
      Cplx.normSq insp1.phase = 1) :=
  ⟨rfl, rfl,
    suscan_set_params_updates RExt RAnalyzer RMsg RInsp none true true rfl rfl⟩

/-- State monotonicity between two analyzer tables: every populated slot is
either tombstoned (its inspector destroyed) or still populated with a state
of at least the old rank. -/
def stateMono {R D N A K : Type} (a a1 : SuscanAnalyzer R D N A K) : Prop :=
  ∀ (i : Nat) (o : Inspector R D N A K),
    a.inspector_list.getD i none = some o →
    a1.inspector_list.getD i none = none ∨
      ∃ n, a1.inspector_list.getD i none = some n ∧
        o.state.rank ≤ n.state.rank

theorem stateMono_refl {R D N A K : Type} (a : SuscanAnalyzer R D N A K) :
    stateMono a a :=
  fun _ o h => Or.inr ⟨o, h, Nat.le_refl _⟩

theorem suscan_register_mono {R D N A K : Type}
    (a : SuscanAnalyzer R D N A K) (insp : Inspector R D N A K)
    (ao po : Bool) :
    stateMono a (suscan_analyzer_register_inspector a insp ao po).1 := by
  unfold suscan_analyzer_register_inspector
  split
  · exact stateMono_refl a
  · split
    · exact stateMono_refl a
    · split
      · intro i o ho
        by_cases hi : i < a.inspector_list.length
        · exact Or.inr ⟨o, by rw [list_getD_append_lt _ _ _ _ hi]; exact ho,
            Nat.le_refl _⟩
        · rw [list_getD_len_le _ _ _ (Nat.le_of_not_lt hi)] at ho
          cases ho
      · intro i o ho
        by_cases hi : i < a.inspector_list.length
        · refine Or.inr ⟨o, ?_, Nat.le_refl _⟩
          have hdispose : (suscan_analyzer_dispose_inspector_handle
              (⟨a.inspector_list ++
                [some { insp with state := AsyncState.running }]⟩ :
                SuscanAnalyzer R D N A K)
              (a.inspector_list.length : Int)).1.inspector_list =
              (a.inspector_list ++
                [some { insp with state := AsyncState.running }]).set
                a.inspector_list.length none := by
            unfold suscan_analyzer_dispose_inspector_handle
            rw [if_neg (by simp)]
            simp only [Int.toNat_natCast, list_getD_append_self]
          rw [hdispose, list_getD_set_ne _ _ _ _ _ (by omega),
            list_getD_append_lt _ _ _ _ hi]
          exact ho
        · rw [list_getD_len_le _ _ _ (Nat.le_of_not_lt hi)] at ho
          cases ho

theorem suscan_parse_mono {R D N A K : Type}
    [LinearOrderedField R] [FloorRing R]
    (E : Externals R D N A K) (cexp : R → Cplx R)
    (a : SuscanAnalyzer R D N A K) (msg : InspectorMsg R)
    (ni : Option (Inspector R D N A K)) (ao po : Bool) :
    stateMono a (suscan_analyzer_parse_inspector_msg E cexp a msg ni ao po).1 := by
  obtain ⟨k, hd, pr, bf, bn, iid, st⟩ := msg
  cases k with
  | mOPEN =>
      cases ni with
      | none => exact stateMono_refl a
      | some n0 =>
          simp only [suscan_analyzer_parse_inspector_msg]
          split
          · exact suscan_register_mono a n0 ao po
          · exact suscan_register_mono a n0 ao po
  | mGET_INFO =>
      simp only [suscan_analyzer_parse_inspector_msg]
      split
      · exact stateMono_refl a
      · exact stateMono_refl a
  | mGET_PARAMS =>
      simp only [suscan_analyzer_parse_inspector_msg]
      split
      · exact stateMono_refl a
      · exact stateMono_refl a
  | mPARAMS =>
      simp only [suscan_analyzer_parse_inspector_msg]
      split
      · exact stateMono_refl a
      · next insp heq =>
          intro i o ho
          have hi := suscan_analyzer_get_inspector_eq_some a hd insp heq
          by_cases hij : i = hd.toNat
          · subst hij
            rw [hi.2.2.1] at ho
            injection ho with ho
            subst ho
            exact Or.inr ⟨_, list_getD_set_self _ _ _ _ hi.2.1, Nat.le_refl _⟩
          · exact Or.inr ⟨o, by
              rw [list_getD_set_ne _ _ _ _ _ (fun hc => hij hc.symm)]
              exact ho, Nat.le_refl _⟩
  | mCLOSE =>
      simp only [suscan_analyzer_parse_inspector_msg]
      split
      · exact stateMono_refl a
      · next insp heq =>
          have hi := suscan_analyzer_get_inspector_eq_some a hd insp heq
          have hdisp : (suscan_analyzer_dispose_inspector_handle a hd).1.inspector_list =
              a.inspector_list.set hd.toNat none := by
            unfold suscan_analyzer_dispose_inspector_handle
            rw [if_neg (by omega)]
            rw [hi.2.2.1]
          split
          · intro i o ho
            by_cases hij : i = hd.toNat
            · subst hij
              exact Or.inl (by rw [hdisp]; exact list_getD_set_self _ _ _ _ hi.2.1)
            · exact Or.inr ⟨o, by
                rw [hdisp, list_getD_set_ne _ _ _ _ _ (fun hc => hij hc.symm)]
                exact ho, Nat.le_refl _⟩
          · intro i o ho
            by_cases hij : i = hd.toNat
            · subst hij
              rw [hi.2.2.1] at ho
              injection ho with ho
              subst ho
              refine Or.inr ⟨_, list_getD_set_self _ _ _ _ hi.2.1, ?_⟩
              rw [hi.2.2.2]
              show AsyncState.running.rank ≤ AsyncState.halting.rank
              decide
            · exact Or.inr ⟨o, by
                rw [list_getD_set_ne _ _ _ _ _ (fun hc => hij hc.symm)]
                exact ho, Nat.le_refl _⟩
  | mINFO => exact stateMono_refl a
  | mWRONG_HANDLE => exact stateMono_refl a
  | mWRONG_KIND => exact stateMono_refl a
  | other c => exact stateMono_refl a

theorem suscan_inspector_feed_bulk_state {R D N A K : Type}
    [LinearOrderedField R] [FloorRing R]
    (E : Externals R D N A K) (insp : Inspector R D N A K) (xs : List (Cplx R)) :
    (suscan_inspector_feed_bulk E insp xs).1.state = insp.state :=
  (suscan_inspector_feed_go_frame E (insp.params.sym_phase * insp.sym_period)
    xs { insp with sym_new_sample := false }).1

theorem suscan_inspector_wk_feed_state {R D N A K : Type}
    [LinearOrderedField R] [FloorRing R] (E : Externals R D N A K) :
    ∀ (fuel : Nat) (insp : Inspector R D N A K) (samples : List (Cplx R))
      (b : Bool),
      (suscan_inspector_wk_feed E fuel insp samples b).1.state = insp.state := by
  intro fuel
  induction fuel with
  | zero => intro insp samples b; rfl
  | succ n ih =>
      intro insp samples b
      unfold suscan_inspector_wk_feed
      split
      · rfl
      · split
        · exact suscan_inspector_feed_bulk_state E insp samples
        · rw [ih]
          exact suscan_inspector_feed_bulk_state E insp samples

theorem suscan_inspector_wk_cb_cases {R D N A K : Type}
    [LinearOrderedField R] [FloorRing R] (E : Externals R D N A K)
    (insp : Inspector R D N A K) (aok : Bool) (samples : List (Cplx R))
    (mqok : Bool) :
    ((suscan_inspector_wk_cb E insp aok samples mqok).1.state = insp.state ∧
      (suscan_inspector_wk_cb E insp aok samples mqok).2 = true) ∨
    ((suscan_inspector_wk_cb E insp aok samples mqok).1.state =
        AsyncState.halted ∧
      (suscan_inspector_wk_cb E insp aok samples mqok).2 = false) := by
  unfold suscan_inspector_wk_cb
  split
  · exact Or.inr ⟨rfl, rfl⟩
  · split
    · exact Or.inr ⟨rfl, rfl⟩
    · split
      · exact Or.inr ⟨rfl, rfl⟩
      · split
        · exact Or.inr ⟨rfl, rfl⟩
        · exact Or.inl
            ⟨suscan_inspector_wk_feed_state E samples.length insp samples false,
              rfl⟩

theorem asyncState_rank_le_three (s : AsyncState) : s.rank ≤ 3 := by
  cases s <;> decide

/-- C8: the inspector state is non-decreasing in the order Created < Running
< Halting < Halted across the operations of the source: every registration
and every control request changes table states only upward (or tombstones a
slot when the inspector is destroyed), registration moves a Created
inspector to Running, a resolved CLOSE moves the Running inspector to
Halting, and every drop path of the worker callback stores Halted, which
has maximal rank. -/
theorem suscan_state_transitions_monotone {R D N A K : Type}
    [LinearOrderedField R] [FloorRing R] :
    (∀ (a : SuscanAnalyzer R D N A K) (insp : Inspector R D N A K) (ao po : Bool),
        stateMono a (suscan_analyzer_register_inspector a insp ao po).1) ∧
    (∀ (a : SuscanAnalyzer R D N A K) (insp : Inspector R D N A K),
        insp.state = AsyncState.created →
        (suscan_analyzer_register_inspector a insp true true).1.inspector_list.getD
            a.inspector_list.length none =
          some { insp with state := AsyncState.running } ∧
        (suscan_analyzer_register_inspector a insp true true).2 =
          (a.inspector_list.length : Int)) ∧
    (∀ (E : Externals R D N A K) (cexp : R → Cplx R)
        (a : SuscanAnalyzer R D N A K) (msg : InspectorMsg R)
        (ni : Option (Inspector R D N A K)) (ao po : Bool),
        stateMono a (suscan_analyzer_parse_inspector_msg E cexp a msg ni ao po).1) ∧
    (∀ (E : Externals R D N A K) (cexp : R → Cplx R)
        (a : SuscanAnalyzer R D N A K) (msg : InspectorMsg R)
        (insp : Inspector R D N A K) (ni : Option (Inspector R D N A K))
        (ao po : Bool),
        msg.kind = MsgKind.mCLOSE →
        suscan_analyzer_get_inspector a msg.handle = some insp →
        insp.state = AsyncState.running ∧
        (suscan_analyzer_parse_inspector_msg E cexp a msg
            ni ao po).1.inspector_list.getD msg.handle.toNat none =
          some { insp with state := AsyncState.halting }) ∧
    (∀ (E : Externals R D N A K) (insp : Inspector R D N A K) (aok : Bool)
        (samples : List (Cplx R)) (mqok : Bool),
        insp.state.rank ≤
          (suscan_inspector_wk_cb E insp aok samples mqok).1.state.rank ∧
        ((suscan_inspector_wk_cb E insp aok samples mqok).2 = false →
          (suscan_inspector_wk_cb E insp aok samples mqok).1.state =
            AsyncState.halted)) := by
  refine ⟨fun a insp ao po => suscan_register_mono a insp ao po, ?_,
    fun E cexp a msg ni ao po => suscan_parse_mono E cexp a msg ni ao po,
    ?_, ?_⟩
  · intro a insp hc
    unfold suscan_analyzer_register_inspector
    rw [if_neg (fun hco => hco hc)]
    exact ⟨list_getD_append_self _ _ _, rfl⟩
  · intro E cexp a msg insp ni ao po hk hg
    have hi := suscan_analyzer_get_inspector_eq_some a msg.handle insp hg
    refine ⟨hi.2.2.2, ?_⟩
    obtain ⟨k, hd, pr, bf, bn, iid, st⟩ := msg
    simp only [] at hk
    subst hk
    simp only [suscan_analyzer_parse_inspector_msg, hg]
    rw [if_neg (by rw [hi.2.2.2]; exact fun hco => AsyncState.noConfusion hco)]
    exact list_getD_set_self _ _ _ _ hi.2.1
  · intro E insp aok samples mqok
    rcases suscan_inspector_wk_cb_cases E insp aok samples mqok with h | h
    · refine ⟨?_, ?_⟩
      · rw [h.1]
      · intro hco
        rw [h.2] at hco
        cases hco
    · refine ⟨?_, fun _ => h.1⟩
      rw [h.1]
      exact asyncState_rank_le_three insp.state

/-- Witness for C8: registering a Created inspector into an empty table
yields a Running slot; a CLOSE on the Running inspector of `QAnalyzerRun`
leaves a Halting slot; a worker callback whose sample acquisition fails
drops and stores Halted. -/
theorem suscan_state_transitions_monotone_witness :
    (QInsp AsyncState.created 0 0 false).state = AsyncState.created ∧
    (suscan_analyzer_register_inspector
        (⟨[]⟩ : SuscanAnalyzer ℚ Unit Unit Unit Unit)
        (QInsp AsyncState.created 0 0 false) true true).1.inspector_list.getD
        0 none =
      some { QInsp AsyncState.created 0 0 false with
        state := AsyncState.running } ∧
    (QMsg MsgKind.mCLOSE 0).kind = MsgKind.mCLOSE ∧
    suscan_analyzer_get_inspector QAnalyzerRun (QMsg MsgKind.mCLOSE 0).handle =
      some (QInsp AsyncState.running 0 0 false) ∧
    (suscan_analyzer_parse_inspector_msg QExt QCexp QAnalyzerRun
        (QMsg MsgKind.mCLOSE 0) none true true).1.inspector_list.getD 0 none =
      some { QInsp AsyncState.running 0 0 false with
        state := AsyncState.halting } ∧
    (suscan_inspector_wk_cb QExt (QInsp AsyncState.running 0 0 false) false
        ([] : List (Cplx ℚ)) true).2 = false ∧
    (suscan_inspector_wk_cb QExt (QInsp AsyncState.running 0 0 false) false
        ([] : List (Cplx ℚ)) true).1.state = AsyncState.halted :=
  ⟨rfl,
    ((@suscan_state_transitions_monotone ℚ Unit Unit Unit Unit _ _).2.1
      ⟨[]⟩ (QInsp AsyncState.created 0 0 false) rfl).1,
    rfl, rfl,
    ((@suscan_state_transitions_monotone ℚ Unit Unit Unit Unit _ _).2.2.2.1
      QExt QCexp QAnalyzerRun (QMsg MsgKind.mCLOSE 0)
      (QInsp AsyncState.running 0 0 false) none true true rfl rfl).2,
    rfl,
    ((@suscan_state_transitions_monotone ℚ Unit Unit Unit Unit _ _).2.2.2.2
      QExt (QInsp AsyncState.running 0 0 false) false [] true).2 rfl⟩

/-- C10: `register_inspector` rejects an inspector whose state is not
Created by returning SU_FALSE, the integer 0 — not the -1 its other failure
paths return; since a successful registration into an empty table also
returns handle 0, the rejection is indistinguishable from that success by
the return value alone. -/
theorem suscan_register_not_created_returns_zero {R D N A K : Type} :
    (∀ (a : SuscanAnalyzer R D N A K) (insp : Inspector R D N A K)
        (ao po : Bool),
        insp.state ≠ AsyncState.created →
        suscan_analyzer_register_inspector a insp ao po = (a, 0)) ∧
    (∀ (a : SuscanAnalyzer R D N A K) (insp : Inspector R D N A K) (po : Bool),
        insp.state = AsyncState.created →
        suscan_analyzer_register_inspector a insp false po = (a, -1)) ∧
    (∀ (a : SuscanAnalyzer R D N A K) (insp : Inspector R D N A K),
        insp.state = AsyncState.created →
        (suscan_analyzer_register_inspector a insp true false).2 = -1) ∧
    (∀ insp : Inspector R D N A K,
        insp.state = AsyncState.created →
        suscan_analyzer_register_inspector (⟨[]⟩ : SuscanAnalyzer R D N A K)
            insp true true =
          (⟨[some { insp with state := AsyncState.running }]⟩, 0)) := by
  refine ⟨?_, ?_, ?_, ?_⟩
  · intro a insp ao po hne
    unfold suscan_analyzer_register_inspector
    rw [if_pos hne]
  · intro a insp po hc
    unfold suscan_analyzer_register_inspector
    rw [if_neg (fun hco => hco hc)]
    rfl
  · intro a insp hc
    unfold suscan_analyzer_register_inspector
    rw [if_neg (fun hco => hco hc)]
    rfl
  · intro insp hc
    unfold suscan_analyzer_register_inspector
    rw [if_neg (fun hco => hco hc)]
    rfl

/-- Witness for C10: a Running inspector is rejected with 0 and a Created
one is accepted at handle 0 — the same return value. -/
theorem suscan_register_not_created_returns_zero_witness :
    (QInsp AsyncState.running 0 0 false).state ≠ AsyncState.created ∧
    suscan_analyzer_register_inspector
        (⟨[]⟩ : SuscanAnalyzer ℚ Unit Unit Unit Unit)
        (QInsp AsyncState.running 0 0 false) true true = (⟨[]⟩, 0) ∧
    (QInsp AsyncState.created 0 0 false).state = AsyncState.created ∧
    suscan_analyzer_register_inspector
        (⟨[]⟩ : SuscanAnalyzer ℚ Unit Unit Unit Unit)
        (QInsp AsyncState.created 0 0 false) true true =
      (⟨[some { QInsp AsyncState.created 0 0 false with
        state := AsyncState.running }]⟩, 0) ∧
    (suscan_analyzer_register_inspector
        (⟨[]⟩ : SuscanAnalyzer ℚ Unit Unit Unit Unit)
        (QInsp AsyncState.created 0 0 false) false true = (⟨[]⟩, -1)) :=
  ⟨fun hco => AsyncState.noConfusion hco,
    (@suscan_register_not_created_returns_zero ℚ Unit Unit Unit Unit).1
      ⟨[]⟩ (QInsp AsyncState.running 0 0 false) true true
      (fun hco => AsyncState.noConfusion hco),
    rfl,
    (@suscan_register_not_created_returns_zero ℚ Unit Unit Unit Unit).2.2.2
      (QInsp AsyncState.created 0 0 false) rfl,
    (@suscan_register_not_created_returns_zero ℚ Unit Unit Unit Unit).2.1
      ⟨[]⟩ (QInsp AsyncState.created 0 0 false) true rfl⟩
